import Mathlib

/-!
Verification development for the Telegram-to-Telegram / Google-Drive transfer
script (`tele-atele-google-drive.py`).  The Python source is shallowly embedded:
pure helpers become Lean functions, the mutable `procesados` set and the local
download directory become explicit state records, and network / transport
behaviour is supplied as explicit environment values.  Strings are modelled at
the ASCII level (Python `str.strip`, `str.lower`, `int(...)` and
`str.encode("utf-8")` are embedded for ASCII content, which is all the claims
exercise).
-/

namespace Tele

/-! ## Python string primitives (ASCII-level model) -/

/-- Characters stripped by Python `str.strip()` (ASCII whitespace). -/
def pySpace (c : Char) : Bool :=
  c == ' ' || c == Char.ofNat 9 || c == Char.ofNat 10 || c == Char.ofNat 13 ||
    c == Char.ofNat 11 || c == Char.ofNat 12

/-- Python `s.strip()`: drop leading and trailing whitespace. -/
def pyStrip (s : String) : String :=
  String.mk (((s.toList.dropWhile pySpace).reverse.dropWhile pySpace).reverse)

/-- ASCII lower-casing of a single character, as in Python `str.lower()`. -/
def lowerChar (c : Char) : Char :=
  if 65 ≤ c.toNat && c.toNat ≤ 90 then Char.ofNat (c.toNat + 32) else c

/-- Python `s.lower()` (ASCII model). -/
def pyLower (s : String) : String :=
  String.mk (s.toList.map lowerChar)

/-- Split a character list at every occurrence of `sep`, keeping empty pieces,
as Python `str.split(sep)` does for a one-character separator. -/
def splitChar (sep : Char) : List Char → List (List Char)
  | [] => [[]]
  | c :: rest =>
    let r := splitChar sep rest
    if c == sep then [] :: r
    else
      match r with
      | h :: t => (c :: h) :: t
      | [] => [[c]]

/-- Python `s.split(sep)` for a one-character separator. -/
def pySplit (s : String) (sep : Char) : List String :=
  (splitChar sep s.toList).map String.mk

/-- Python `int(s)`: strip whitespace, optional sign, then decimal digits
(ASCII model; returns `none` where Python raises `ValueError`). -/
def pyInt (s : String) : Option Int :=
  let t := (pyStrip s).toList
  let signDigits : Int × List Char :=
    match t with
    | '+' :: r => (1, r)
    | '-' :: r => (-1, r)
    | r => (1, r)
  if signDigits.2 ≠ [] ∧ signDigits.2.all Char.isDigit then
    some (signDigits.1 *
      (signDigits.2.foldl (fun a c => a * 10 + (c.toNat - 48)) (0 : Nat) : Nat))
  else none

/-! ## MD5 (`hashlib.md5(...).hexdigest()`)

A direct functional implementation of MD5 over byte lists, 32-bit words
modelled as `Nat` reduced `% 2^32`. -/

def w32 : Nat := 4294967296

def rotl32 (x c : Nat) : Nat :=
  ((x <<< c) % w32) ||| (x >>> (32 - c))

def md5K : List Nat :=
  [0xd76aa478, 0xe8c7b756, 0x242070db, 0xc1bdceee,
   0xf57c0faf, 0x4787c62a, 0xa8304613, 0xfd469501,
   0x698098d8, 0x8b44f7af, 0xffff5bb1, 0x895cd7be,
   0x6b901122, 0xfd987193, 0xa679438e, 0x49b40821,
   0xf61e2562, 0xc040b340, 0x265e5a51, 0xe9b6c7aa,
   0xd62f105d, 0x02441453, 0xd8a1e681, 0xe7d3fbc8,
   0x21e1cde6, 0xc33707d6, 0xf4d50d87, 0x455a14ed,
   0xa9e3e905, 0xfcefa3f8, 0x676f02d9, 0x8d2a4c8a,
   0xfffa3942, 0x8771f681, 0x6d9d6122, 0xfde5380c,
   0xa4beea44, 0x4bdecfa9, 0xf6bb4b60, 0xbebfbc70,
   0x289b7ec6, 0xeaa127fa, 0xd4ef3085, 0x04881d05,
   0xd9d4d039, 0xe6db99e5, 0x1fa27cf8, 0xc4ac5665,
   0xf4292244, 0x432aff97, 0xab9423a7, 0xfc93a039,
   0x655b59c3, 0x8f0ccc92, 0xffeff47d, 0x85845dd1,
   0x6fa87e4f, 0xfe2ce6e0, 0xa3014314, 0x4e0811a1,
   0xf7537e82, 0xbd3af235, 0x2ad7d2bb, 0xeb86d391]

def md5S : List Nat :=
  [7, 12, 17, 22, 7, 12, 17, 22, 7, 12, 17, 22, 7, 12, 17, 22,
   5, 9, 14, 20, 5, 9, 14, 20, 5, 9, 14, 20, 5, 9, 14, 20,
   4, 11, 16, 23, 4, 11, 16, 23, 4, 11, 16, 23, 4, 11, 16, 23,
   6, 10, 15, 21, 6, 10, 15, 21, 6, 10, 15, 21, 6, 10, 15, 21]

def md5F (b c d : Nat) : Nat := (b &&& c) ||| ((b ^^^ 4294967295) &&& d)

def md5G (b c d : Nat) : Nat := (d &&& b) ||| ((d ^^^ 4294967295) &&& c)

def md5H (b c d : Nat) : Nat := b ^^^ c ^^^ d

def md5I (b c d : Nat) : Nat := c ^^^ (b ||| (d ^^^ 4294967295))

def md5Step (M : List Nat) (st : Nat × Nat × Nat × Nat) (i : Nat) :
    Nat × Nat × Nat × Nat :=
  let a := st.1
  let b := st.2.1
  let c := st.2.2.1
  let d := st.2.2.2
  let fg : Nat × Nat :=
    if i < 16 then (md5F b c d, i)
    else if i < 32 then (md5G b c d, (5 * i + 1) % 16)
    else if i < 48 then (md5H b c d, (3 * i + 5) % 16)
    else (md5I b c d, (7 * i) % 16)
  let f := (fg.1 + a + md5K.getD i 0 + M.getD fg.2 0) % w32
  (d, (b + rotl32 f (md5S.getD i 0)) % w32, b, c)

/-- Decode one 64-byte chunk into 16 little-endian 32-bit words. -/
def chunkWords (chunk : List Nat) : List Nat :=
  (List.range 16).map fun j =>
    chunk.getD (4 * j) 0 + chunk.getD (4 * j + 1) 0 * 256 +
      chunk.getD (4 * j + 2) 0 * 65536 + chunk.getD (4 * j + 3) 0 * 16777216

def md5Chunk (st : Nat × Nat × Nat × Nat) (chunk : List Nat) :
    Nat × Nat × Nat × Nat :=
  let M := chunkWords chunk
  let r := (List.range 64).foldl (md5Step M) st
  ((st.1 + r.1) % w32, (st.2.1 + r.2.1) % w32,
   (st.2.2.1 + r.2.2.1) % w32, (st.2.2.2 + r.2.2.2) % w32)

/-- `k` little-endian bytes of `n`. -/
def natLEBytes (n k : Nat) : List Nat :=
  (List.range k).map fun i => (n >>> (8 * i)) % 256

/-- MD5 padding: a `0x80` byte, zeros to 56 mod 64, then the bit length as a
64-bit little-endian integer. -/
def md5Pad (msg : List Nat) : List Nat :=
  let len := msg.length
  let zeros := (56 + 64 - (len + 1) % 64) % 64
  msg ++ [128] ++ List.replicate zeros 0 ++ natLEBytes ((len * 8) % (2 ^ 64)) 8

/-- Split into 64-byte chunks, carrying the current chunk reversed. -/
def toChunksAux : List Nat → List Nat → List (List Nat)
  | [], cur => if cur = [] then [] else [cur.reverse]
  | b :: bs, cur =>
    if cur.length = 63 then (b :: cur).reverse :: toChunksAux bs []
    else toChunksAux bs (b :: cur)

def toChunks (bs : List Nat) : List (List Nat) := toChunksAux bs []

def md5Bytes (bs : List Nat) : Nat × Nat × Nat × Nat :=
  (toChunks (md5Pad bs)).foldl md5Chunk
    (0x67452301, 0xefcdab89, 0x98badcfe, 0x10325476)

def hexDigitChar (n : Nat) : Char :=
  if n < 10 then Char.ofNat (48 + n) else Char.ofNat (87 + n)

def byteHex (b : Nat) : String :=
  String.mk [hexDigitChar (b / 16), hexDigitChar (b % 16)]

def wordHexLE (w : Nat) : String :=
  byteHex (w % 256) ++ byteHex (w / 256 % 256) ++ byteHex (w / 65536 % 256) ++
    byteHex (w / 16777216 % 256)

/-- ASCII model of Python `s.encode("utf-8")`. -/
def strBytes (s : String) : List Nat := s.toList.map Char.toNat

/-- `hashlib.md5(s.encode("utf-8")).hexdigest()`. -/
def md5hex (s : String) : String :=
  let r := md5Bytes (strBytes s)
  wordHexLE r.1 ++ wordHexLE r.2.1 ++ wordHexLE r.2.2.1 ++ wordHexLE r.2.2.2

/-! ## Message data model (the Telethon message fields the script reads) -/

/-- One attribute of a Telethon document; the script only distinguishes
`DocumentAttributeFilename` from everything else. -/
inductive DocAttr where
  | filename (fileName : String)
  | other
deriving DecidableEq, Repr

structure Document where
  attributes : List DocAttr
  id : Nat
deriving DecidableEq, Repr

/-- A Telethon photo; `id = none` models the defensive `except` branch where
reading `msg.photo.id` raises. -/
structure Photo where
  id : Option Nat
deriving DecidableEq, Repr

/-- The fields of a Telethon message that the script reads.  `media` is true
when the message carries some other media object (`msg.media` truthy). -/
structure Msg where
  id : Nat
  date : Nat
  message : Option String
  document : Option Document
  photo : Option Photo
  media : Bool
deriving DecidableEq, Repr

instance : Inhabited Msg := ⟨⟨0, 0, none, none, none, false⟩⟩

/-- Python truthiness of `msg.message and msg.message.strip()`. -/
def hasNonemptyText (m : Msg) : Bool :=
  match m.message with
  | some s => (s != "") && (pyStrip s != "")
  | none => false

/-- The first `DocumentAttributeFilename` in an attribute list. -/
def firstFilename : List DocAttr → Option String
  | [] => none
  | DocAttr.filename n :: _ => some n
  | DocAttr.other :: rest => firstFilename rest

/-- `compute_fingerprint(msg)` from the source: text messages hash their
stripped, lower-cased text; caption-less documents hash a found filename and
otherwise fall back to the raw document id; photos use the raw photo id
(falling back to the message id); other media use the message id. -/
def compute_fingerprint (msg : Msg) : Option String :=
  if hasNonemptyText msg then
    some ("txt:" ++ md5hex (pyLower (pyStrip (msg.message.getD ""))))
  else
    match msg.document with
    | some doc =>
      match firstFilename doc.attributes with
      | some nombre => some ("doc:" ++ md5hex (pyLower (pyStrip nombre)))
      | none => some ("doc:" ++ toString doc.id)
    | none =>
      match msg.photo with
      | some ph =>
        match ph.id with
        | some pid => some ("photo:" ++ toString pid)
        | none => some ("photo:" ++ toString msg.id)
      | none =>
        if msg.media then some ("media:" ++ toString msg.id) else none

/-! ## `extract_drive_file_id`: the regex search for `/d/([a-zA-Z0-9_-]+)` -/

/-- The character class `[a-zA-Z0-9_-]`. -/
def driveIdChar (c : Char) : Bool :=
  (97 ≤ c.toNat && c.toNat ≤ 122) || (65 ≤ c.toNat && c.toNat ≤ 90) ||
    (48 ≤ c.toNat && c.toNat ≤ 57) || c == '_' || c == '-'

/-- `re.search` for the pattern: scan left to right for a position where
`/d/` is followed by at least one class character; capture the maximal run.
(When the marker matches but no class character follows, the search resumes
at the next position, which is exactly the tail `rest`.) -/
def scanDriveId : List Char → Option String
  | [] => none
  | c :: rest =>
    match c, rest with
    | '/', 'd' :: '/' :: rest2 =>
      let run := rest2.takeWhile driveIdChar
      if run.isEmpty then scanDriveId rest
      else some (String.mk run)
    | _, _ => scanDriveId rest

def extract_drive_file_id (url : String) : Option String :=
  scanDriveId url.toList

/-! ## Selection parsing (`main`, the `seleccion` prompt) -/

/-- Python `range(inicio, fin + 1)` over `Int`. -/
def rangeInt (inicio fin : Int) : List Int :=
  (List.range (fin + 1 - inicio).toNat).map fun k => inicio + k

/-- Process one comma-separated piece: an inclusive `a-b` range (skipped when
the piece does not split into exactly two parseable integers) or a single
index (skipped when unparseable). -/
def parseParte (acc : List Int) (parte : String) : List Int :=
  let p := pyStrip parte
  if p.toList.contains '-' then
    match pySplit p '-' with
    | [a, b] =>
      match pyInt a, pyInt b with
      | some i, some j => acc ++ rangeInt i j
      | _, _ => acc
    | _ => acc
  else
    match pyInt p with
    | some i => acc ++ [i]
    | none => acc

/-- Parse the (already stripped, lower-cased) selection input: `todos` selects
every index of the `n` listed messages, otherwise comma-separated indices and
inclusive ranges. -/
def parseSeleccion (seleccion : String) (n : Nat) : List Int :=
  if seleccion = "todos" then (List.range n).map (fun k => (k : Int))
  else (pySplit seleccion ',').foldl parseParte []

/-! ## Destination seeding and the duplicate pre-filter (`main`) -/

/-- Seed `dest_text_set` with the stripped text of every destination message
that has non-empty text. -/
def seedDestSet (destMsgs : List Msg) : List String :=
  destMsgs.foldl
    (fun s m => if hasNonemptyText m then pyStrip (m.message.getD "") :: s else s)
    []

/-- The pre-filter loop over the selected indices: out-of-range indices are
dropped; a message with non-empty text is kept only when its stripped text is
not yet in `dest_text_set`, which then records it; a message without
non-empty text is always kept. -/
def prefilterGo (mensajes : List Msg) : List Int → List String → List Nat
  | [], _ => []
  | i :: rest, dset =>
    if i < 0 ∨ (mensajes.length : Int) ≤ i then prefilterGo mensajes rest dset
    else
      let msg := mensajes.getD i.toNat default
      if hasNonemptyText msg then
        let txt := pyStrip (msg.message.getD "")
        if txt ∈ dset then prefilterGo mensajes rest dset
        else i.toNat :: prefilterGo mensajes rest (txt :: dset)
      else i.toNat :: prefilterGo mensajes rest dset

/-- `mensajes.sort(key=lambda m: m.date)` — a stable sort by date. -/
def ordena (mensajes : List Msg) : List Msg :=
  mensajes.insertionSort (fun a b => a.date ≤ b.date)

/-- The ordered list of source indices that `main` forwards: sort messages by
date, parse the selection, pre-filter duplicates by stripped text, then sort
the surviving indices ascending (`nuevos_indices.sort()`). -/
def mainEmitted (mensajes destMsgs : List Msg) (input : String) : List Nat :=
  (prefilterGo (ordena mensajes)
    (parseSeleccion (pyLower (pyStrip input)) (ordena mensajes).length)
    (seedDestSet destMsgs)).insertionSort (fun a b => a ≤ b)

/-! ## `forward_message` -/

/-- A destination-facing send performed by the transport. -/
inductive Send where
  | sfile (path caption : String)
  | stext (text : Option String)
deriving DecidableEq, Repr

/-- External behaviour for one `forward_message` call: what
`client.download_media` returns, and whether the send and the `os.remove`
succeed (an exception otherwise). -/
structure FwdEnv where
  downloadPath : Option String
  sendOk : Bool
  removeOk : Bool
deriving DecidableEq, Repr

/-- Observable outcome of one `forward_message` call. -/
structure FwdResult where
  sends : List Send
  fileRemains : Option String
  errored : Bool
deriving DecidableEq, Repr

/-- `forward_message`: with media, download then send the file with the
original caption (`msg.message` or `""`); the `os.remove` cleanup sits
sequentially after the send inside the same `try`, so a send exception jumps
to the handler and skips it.  Without media, the text is sent.  A failed
download sends nothing and raises nothing. -/
def forward_message (msg : Msg) (env : FwdEnv) : FwdResult :=
  if msg.photo.isSome || msg.document.isSome || msg.media then
    match env.downloadPath with
    | some filePath =>
      if env.sendOk then
        ⟨[Send.sfile filePath (msg.message.getD "")],
         if env.removeOk then none else some filePath, false⟩
      else ⟨[], some filePath, true⟩
    | none => ⟨[], none, false⟩
  else
    if env.sendOk then ⟨[Send.stext msg.message], none, false⟩
    else ⟨[], none, true⟩

/-- The send a job performs when download and send both succeed. -/
def successSend (m : Msg) (path : String) : Send :=
  if m.photo.isSome || m.document.isSome || m.media then
    Send.sfile path (m.message.getD "")
  else Send.stext m.message

/-- The sequential emission loop of `main`: each `forward_message` is awaited
to completion before the next job starts, so the destination trace is the
left fold of the per-job sends over the filtered index list. -/
def mainTrace (mensajes destMsgs : List Msg) (input : String)
    (env : Nat → FwdEnv) : List Send :=
  (mainEmitted mensajes destMsgs input).foldl
    (fun tr i => tr ++ (forward_message ((ordena mensajes).getD i default) (env i)).sends)
    []

/-! ## `download_from_google_drive` and `process_game` -/

/-- Network behaviour for one fetch: whether `requests.get` +
`raise_for_status` succeed, the content chunks delivered, and whether the
stream raises after delivering them (mid-stream transport error). -/
structure NetResponse where
  ok : Bool
  chunks : List (List Nat)
  failsAfter : Bool
deriving DecidableEq, Repr

/-- Process-run state: the `procesados` set, the download directory contents
(path to byte content), and the network requests issued. -/
structure DLState where
  procesados : List String
  files : List (String × List Nat)
  netRequests : List String
deriving DecidableEq, Repr

inductive DLResult where
  | invalidLink
  | duplicate
  | downloadError
  | ok (path : String)
deriving DecidableEq, Repr

/-- `open(path, "wb")` plus the writes: create or truncate, final content is
whatever was streamed. -/
def setFile (files : List (String × List Nat)) (path : String)
    (content : List Nat) : List (String × List Nat) :=
  (path, content) :: files.filter fun pr => pr.1 != path

def removeFile (files : List (String × List Nat)) (path : String) :
    List (String × List Nat) :=
  files.filter fun pr => pr.1 != path

/-- `download_from_google_drive`: extract the file id (invalid link if none);
skip ids already in `procesados` with a duplicate report and no network
request; otherwise issue the request and stream chunks to
`destFolder/fileId`.  An HTTP error leaves no file; a mid-stream error leaves
the partial file and does not record the id; success records the id. -/
def download_from_google_drive (st : DLState) (url : String) (net : NetResponse)
    (destFolder : String) : DLResult × DLState :=
  match extract_drive_file_id url with
  | none => (DLResult.invalidLink, st)
  | some fileId =>
    if fileId ∈ st.procesados then (DLResult.duplicate, st)
    else if !net.ok then
      (DLResult.downloadError,
       ⟨st.procesados, st.files,
        st.netRequests ++ ["https://docs.google.com/uc?export=download&id=" ++ fileId]⟩)
    else if net.failsAfter then
      (DLResult.downloadError,
       ⟨st.procesados,
        setFile st.files (destFolder ++ "/" ++ fileId) net.chunks.flatten,
        st.netRequests ++ ["https://docs.google.com/uc?export=download&id=" ++ fileId]⟩)
    else
      (DLResult.ok (destFolder ++ "/" ++ fileId),
       ⟨st.procesados ++ [fileId],
        setFile st.files (destFolder ++ "/" ++ fileId) net.chunks.flatten,
        st.netRequests ++ ["https://docs.google.com/uc?export=download&id=" ++ fileId]⟩)

/-- One game part together with its external environment: the network
behaviour of its link and whether `send_file` succeeds. -/
structure Parte where
  parte : Int
  url : String
  net : NetResponse
  sendOk : Bool
deriving DecidableEq, Repr

inductive GameEvent where
  | sent (parte : Int) (path : String)
  | sendError (parte : Int)
  | skipped (parte : Int)
deriving DecidableEq, Repr

/-- One iteration of the `process_game` loop: download the part; on success
send it (recording a send error instead of raising) and remove the temporary
file in a `finally`; otherwise record the part as skipped.  The loop never
aborts: every part appends exactly one terminal event. -/
def processParteStep (acc : DLState × List GameEvent) (p : Parte) :
    DLState × List GameEvent :=
  let res := download_from_google_drive acc.1 p.url p.net "downloads"
  match res.1 with
  | DLResult.ok archivo =>
    (⟨res.2.procesados, removeFile res.2.files archivo, res.2.netRequests⟩,
     acc.2 ++ [if p.sendOk then GameEvent.sent p.parte archivo
               else GameEvent.sendError p.parte])
  | _ => (res.2, acc.2 ++ [GameEvent.skipped p.parte])

/-- `process_game`: sort the parts by number and, strictly in order, download
and send each one. -/
def process_game (st : DLState) (partes : List Parte) : DLState × List GameEvent :=
  (partes.insertionSort (fun a b => a.parte ≤ b.parte)).foldl processParteStep
    (st, [])

/-! ## Spec-side emission (refinement target for the ordering claim)

Written from the spec's words: scanning the (date-sorted) source in order,
the destination receives exactly the selected subset's non-duplicate members,
in source order; a member is a duplicate when its stripped text was already
seen at the destination or earlier among the kept members, and members
without identifiable text are always kept. -/

def specGo (mensajes : List Msg) (parsed : List Int) :
    List Nat → List String → List Nat
  | [], _ => []
  | i :: rest, seen =>
    if (i : Int) ∈ parsed then
      let m := mensajes.getD i default
      if hasNonemptyText m then
        let txt := pyStrip (m.message.getD "")
        if txt ∈ seen then specGo mensajes parsed rest seen
        else i :: specGo mensajes parsed rest (txt :: seen)
      else i :: specGo mensajes parsed rest seen
    else specGo mensajes parsed rest seen

/-- The spec's predicted emission: walk source positions `0..n-1` in order,
keeping the selected, non-duplicate members. -/
def specEmission (mensajes destMsgs : List Msg) (parsed : List Int) : List Nat :=
  specGo mensajes parsed (List.range mensajes.length) (seedDestSet destMsgs)

/-- The stripped text of the message at index `i`, when it has non-empty
text.  Used to state what the pre-filter deduplicates on. -/
def keptText (mensajes : List Msg) (i : Nat) : Option String :=
  if hasNonemptyText (mensajes.getD i default) then
    some (pyStrip ((mensajes.getD i default).message.getD ""))
  else none

/-! # Theorems -/

/-- C5: for messages with non-empty text, the fingerprint is a pure function
of the normalized (stripped, lower-cased) text: equal normalized texts give
equal fingerprints, of text kind with digest the MD5 of the normalized text.
`compute_fingerprint` is a function of the message alone, so no external
state is involved. -/
theorem fingerprint_text_pure (m1 m2 : Msg) (s1 s2 : String)
    (h1 : m1.message = some s1) (h2 : m2.message = some s2)
    (hn1 : hasNonemptyText m1 = true) (hn2 : hasNonemptyText m2 = true)
    (heq : pyLower (pyStrip s1) = pyLower (pyStrip s2)) :
    compute_fingerprint m1 = compute_fingerprint m2 ∧
    compute_fingerprint m1 = some ("txt:" ++ md5hex (pyLower (pyStrip s1))) := by
  constructor
  · simp [compute_fingerprint, hn1, hn2, h1, h2, heq]
  · simp [compute_fingerprint, hn1, h1]

/-- Witness for C5 at the concrete texts `"  Hello "` and `"hello"`. -/
theorem fingerprint_text_pure_witness :
    compute_fingerprint ⟨0, 0, some "  Hello ", none, none, false⟩ =
      compute_fingerprint ⟨1, 1, some "hello", none, none, false⟩ ∧
    compute_fingerprint ⟨0, 0, some "  Hello ", none, none, false⟩ =
      some ("txt:" ++ md5hex (pyLower (pyStrip "  Hello "))) :=
  fingerprint_text_pure _ _ "  Hello " "hello" rfl rfl (by decide) (by decide)
    (by decide)

/-- C4 counterexample: a caption-less document without a filename attribute is
fingerprinted with the raw provider id (`doc:5`), not the MD5 of that id, and
a caption-less photo likewise gets the raw photo id. -/
theorem fingerprint_raw_id_cex :
    compute_fingerprint ⟨3, 0, none, some ⟨[DocAttr.other], 5⟩, none, true⟩ =
      some "doc:5"
    ∧ "doc:5" ≠ "doc:" ++ md5hex "5"
    ∧ compute_fingerprint ⟨4, 0, none, none, some ⟨some 7⟩, true⟩ =
      some "photo:7"
    ∧ "photo:7" ≠ "photo:" ++ md5hex "7" := by
  refine ⟨by decide, ?_, by decide, ?_⟩
  · set_option maxRecDepth 8000 in decide
  · set_option maxRecDepth 8000 in decide

/-- C4 amended: with no non-empty text, a document carrying no filename
attribute is fingerprinted `doc:` followed by the raw provider document id
(no hashing); a photo is fingerprinted `photo:` followed by the raw provider
photo id, falling back to the message's own id when none is exposed. -/
theorem fingerprint_doc_photo_raw_id (m : Msg) (d : Document) (ph : Photo)
    (pid : Nat) :
    (hasNonemptyText m = false → m.document = some d →
      firstFilename d.attributes = none →
      compute_fingerprint m = some ("doc:" ++ toString d.id))
    ∧ (hasNonemptyText m = false → m.document = none → m.photo = some ph →
        ph.id = some pid →
        compute_fingerprint m = some ("photo:" ++ toString pid))
    ∧ (hasNonemptyText m = false → m.document = none → m.photo = some ph →
        ph.id = none →
        compute_fingerprint m = some ("photo:" ++ toString m.id)) := by
  refine ⟨?_, ?_, ?_⟩
  · intro ht hd hf
    simp [compute_fingerprint, ht, hd, hf]
  · intro ht hd hp hpid
    simp [compute_fingerprint, ht, hd, hp, hpid]
  · intro ht hd hp hpid
    simp [compute_fingerprint, ht, hd, hp, hpid]

/-- Witness for C4's amended statement at concrete messages. -/
theorem fingerprint_doc_photo_raw_id_witness :
    compute_fingerprint ⟨3, 0, none, some ⟨[DocAttr.other], 5⟩, none, true⟩ =
      some ("doc:" ++ toString 5)
    ∧ compute_fingerprint ⟨4, 0, none, none, some ⟨some 7⟩, true⟩ =
      some ("photo:" ++ toString 7)
    ∧ compute_fingerprint ⟨9, 0, none, none, some ⟨none⟩, true⟩ =
      some ("photo:" ++ toString 9) :=
  ⟨(fingerprint_doc_photo_raw_id ⟨3, 0, none, some ⟨[DocAttr.other], 5⟩, none, true⟩
      ⟨[DocAttr.other], 5⟩ ⟨some 7⟩ 7).1 (by decide) rfl (by decide),
   (fingerprint_doc_photo_raw_id ⟨4, 0, none, none, some ⟨some 7⟩, true⟩
      ⟨[], 5⟩ ⟨some 7⟩ 7).2.1 (by decide) rfl rfl rfl,
   (fingerprint_doc_photo_raw_id ⟨9, 0, none, none, some ⟨none⟩, true⟩
      ⟨[], 5⟩ ⟨none⟩ 7).2.2 (by decide) rfl rfl rfl⟩

/-- C8 counterexample: a downloaded media payload whose send raises is NOT
deleted — `os.remove` sits after `send_file` inside the same `try`, so the
exception jumps past it and the temporary file remains. -/
theorem cleanup_cex :
    (forward_message ⟨0, 0, none, none, some ⟨some 7⟩, true⟩
        ⟨some "tmpf", false, true⟩).fileRemains = some "tmpf"
    ∧ (forward_message ⟨0, 0, none, none, some ⟨some 7⟩, true⟩
        ⟨some "tmpf", false, true⟩).errored = true := by
  decide

/-- C8 amended: after a successful download, the payload file is deleted only
when the send succeeds (and the removal itself succeeds); when the send
raises, the cleanup is skipped and the file remains on disk. -/
theorem cleanup_after_send (msg : Msg) (env : FwdEnv) (p : String)
    (hmedia : (msg.photo.isSome || msg.document.isSome || msg.media) = true)
    (hdl : env.downloadPath = some p) :
    (env.sendOk = true → env.removeOk = true →
      (forward_message msg env).fileRemains = none)
    ∧ (env.sendOk = false →
        (forward_message msg env).fileRemains = some p) := by
  constructor
  · intro hs hr
    simp [forward_message, hmedia, hdl, hs, hr]
  · intro hs
    simp [forward_message, hmedia, hdl, hs]

/-- Witness for C8's amended statement. -/
theorem cleanup_after_send_witness :
    (forward_message ⟨0, 0, none, none, some ⟨some 7⟩, true⟩
        ⟨some "tmpf", true, true⟩).fileRemains = none
    ∧ (forward_message ⟨0, 0, none, none, some ⟨some 7⟩, true⟩
        ⟨some "tmpg", false, true⟩).fileRemains = some "tmpg" :=
  ⟨(cleanup_after_send ⟨0, 0, none, none, some ⟨some 7⟩, true⟩
      ⟨some "tmpf", true, true⟩ "tmpf" (by decide) rfl).1 rfl rfl,
   (cleanup_after_send ⟨0, 0, none, none, some ⟨some 7⟩, true⟩
      ⟨some "tmpg", false, true⟩ "tmpg" (by decide) rfl).2 rfl⟩

/-- C9: the example sharing URL yields exactly `ABC123`, and whenever the
extractor finds no `/d/<run>` segment the fetch reports an invalid link and
changes nothing (no network request, no file), so the batch continues. -/
theorem extract_resource_id_spec :
    extract_drive_file_id
        "https://drive.google.com/file/d/ABC123/view?usp=sharing" =
      some "ABC123"
    ∧ ∀ (url destF : String) (st : DLState) (net : NetResponse),
        extract_drive_file_id url = none →
        download_from_google_drive st url net destF =
          (DLResult.invalidLink, st) := by
  refine ⟨by decide, ?_⟩
  intro url destF st net h
  simp [download_from_google_drive, h]

/-- Witness for C9 at a URL with no `/d/` segment. -/
theorem extract_resource_id_spec_witness :
    extract_drive_file_id "https://example.com/x" = none
    ∧ download_from_google_drive ⟨[], [], []⟩ "https://example.com/x"
        ⟨true, [], false⟩ "downloads" = (DLResult.invalidLink, ⟨[], [], []⟩) :=
  ⟨by decide,
   extract_resource_id_spec.2 "https://example.com/x" "downloads" ⟨[], [], []⟩
     ⟨true, [], false⟩ (by decide)⟩

/-- C6: at-most-once fetch per resource id per run: a fetch of an id already
in `procesados` returns the duplicate outcome with the state unchanged (no
network request recorded, no file written); a successful fetch records its
id; hence a second fetch of the same id after a success is a pure duplicate
report. -/
theorem download_at_most_once (st st1 : DLState)
    (url url2 destF destF2 fileId path : String) (net net2 : NetResponse) :
    (extract_drive_file_id url = some fileId → fileId ∈ st.procesados →
      download_from_google_drive st url net destF = (DLResult.duplicate, st))
    ∧ (extract_drive_file_id url = some fileId →
        download_from_google_drive st url net destF = (DLResult.ok path, st1) →
        fileId ∈ st1.procesados)
    ∧ (extract_drive_file_id url = some fileId →
        extract_drive_file_id url2 = some fileId →
        download_from_google_drive st url net destF = (DLResult.ok path, st1) →
        download_from_google_drive st1 url2 net2 destF2 =
          (DLResult.duplicate, st1)) := by
  have hdup : ∀ (st' : DLState) (u dF : String) (n : NetResponse),
      extract_drive_file_id u = some fileId → fileId ∈ st'.procesados →
      download_from_google_drive st' u n dF = (DLResult.duplicate, st') := by
    intro st' u dF n he hm
    simp [download_from_google_drive, he, hm]
  have hrec : ∀ (he : extract_drive_file_id url = some fileId),
      download_from_google_drive st url net destF = (DLResult.ok path, st1) →
      fileId ∈ st1.procesados := by
    intro he hdl
    simp only [download_from_google_drive, he] at hdl
    by_cases hm : fileId ∈ st.procesados
    · simp [hm] at hdl
    · by_cases hok : net.ok
      · by_cases hf : net.failsAfter
        · simp [hm, hok, hf] at hdl
        · simp [hm, hok, hf] at hdl
          obtain ⟨-, hst⟩ := hdl
          subst hst
          simp
      · simp [hm, hok] at hdl
  refine ⟨hdup st url destF net, hrec, ?_⟩
  intro he he2 hdl
  exact hdup st1 url2 destF2 net2 he2 (hrec he hdl)

/-- Witness for C6: fetch `ABC` once, then fetch it again through a second
URL carrying the same id. -/
theorem download_at_most_once_witness :
    download_from_google_drive
        ⟨["ABC"], [("downloads/ABC", [1, 2, 3])],
         ["https://docs.google.com/uc?export=download&id=ABC"]⟩
        "https://drive.google.com/file/d/ABC/view?x=1" ⟨true, [[9]], false⟩
        "downloads" =
      (DLResult.duplicate,
       ⟨["ABC"], [("downloads/ABC", [1, 2, 3])],
        ["https://docs.google.com/uc?export=download&id=ABC"]⟩) :=
  (download_at_most_once ⟨[], [], []⟩
      ⟨["ABC"], [("downloads/ABC", [1, 2, 3])],
       ["https://docs.google.com/uc?export=download&id=ABC"]⟩
      "https://drive.google.com/file/d/ABC/view"
      "https://drive.google.com/file/d/ABC/view?x=1" "downloads" "downloads"
      "ABC" "downloads/ABC" ⟨true, [[1, 2], [3]], false⟩
      ⟨true, [[9]], false⟩).2.2 (by decide) (by decide) (by decide)

/-! ### C7: mid-stream download failure -/

lemma processParteStep_length (acc : DLState × List GameEvent) (p : Parte) :
    (processParteStep acc p).2.length = acc.2.length + 1 := by
  rcases hres : (download_from_google_drive acc.1 p.url p.net "downloads").1
    with _ | _ | _ | archivo <;> simp [processParteStep, hres]

lemma process_fold_length (l : List Parte) :
    ∀ (acc : DLState × List GameEvent),
      (l.foldl processParteStep acc).2.length = acc.2.length + l.length := by
  induction l with
  | nil => intro acc; simp
  | cons p rest ih =>
    intro acc
    rw [List.foldl_cons, ih, processParteStep_length, List.length_cons]
    omega

lemma process_game_events_length (st : DLState) (partes : List Parte) :
    (process_game st partes).2.length = partes.length := by
  unfold process_game
  rw [process_fold_length]
  simp [List.length_insertionSort]

/-- C7 counterexample: part 1's stream dies after delivering `[1, 2, 3]`; the
job is skipped and part 2 still runs — but the partial file
`downloads/AAA` REMAINS on disk, contradicting "no partial file remains". -/
theorem partial_file_cex :
    (process_game ⟨[], [], []⟩
        [⟨1, "https://drive.google.com/file/d/AAA/view",
          ⟨true, [[1, 2, 3]], true⟩, true⟩,
         ⟨2, "https://drive.google.com/file/d/BBB/view",
          ⟨true, [[7]], false⟩, true⟩]).1.files =
      [("downloads/AAA", [1, 2, 3])]
    ∧ (process_game ⟨[], [], []⟩
        [⟨1, "https://drive.google.com/file/d/AAA/view",
          ⟨true, [[1, 2, 3]], true⟩, true⟩,
         ⟨2, "https://drive.google.com/file/d/BBB/view",
          ⟨true, [[7]], false⟩, true⟩]).2 =
      [GameEvent.skipped 1, GameEvent.sent 2 "downloads/BBB"] := by
  decide

/-- C7 amended: a mid-stream transport failure reports a download error
without recording the id, the job is skipped, and every part of the batch
still produces its terminal event (no abort) — but the partially written
file remains in the download directory (the error path deletes nothing). -/
theorem midstream_failure_behavior (st : DLState)
    (url fileId destF : String) (net : NetResponse)
    (he : extract_drive_file_id url = some fileId)
    (hm : fileId ∉ st.procesados) (hok : net.ok = true)
    (hf : net.failsAfter = true) :
    (download_from_google_drive st url net destF).1 = DLResult.downloadError
    ∧ (download_from_google_drive st url net destF).2.procesados =
        st.procesados
    ∧ (destF ++ "/" ++ fileId, net.chunks.flatten) ∈
        (download_from_google_drive st url net destF).2.files
    ∧ ∀ (st2 : DLState) (partes : List Parte),
        (process_game st2 partes).2.length = partes.length := by
  have hdl : download_from_google_drive st url net destF =
      (DLResult.downloadError,
       ⟨st.procesados,
        setFile st.files (destF ++ "/" ++ fileId) net.chunks.flatten,
        st.netRequests ++
          ["https://docs.google.com/uc?export=download&id=" ++ fileId]⟩) := by
    simp [download_from_google_drive, he, hm, hok, hf]
  refine ⟨by rw [hdl], by rw [hdl], ?_, fun st2 partes =>
    process_game_events_length st2 partes⟩
  rw [hdl]
  simp [setFile]

/-- Witness for C7's amended statement. -/
theorem midstream_failure_behavior_witness :
    (download_from_google_drive ⟨[], [], []⟩
        "https://drive.google.com/file/d/AAA/view" ⟨true, [[1, 2, 3]], true⟩
        "downloads").1 = DLResult.downloadError
    ∧ (download_from_google_drive ⟨[], [], []⟩
        "https://drive.google.com/file/d/AAA/view" ⟨true, [[1, 2, 3]], true⟩
        "downloads").2.procesados = []
    ∧ ("downloads" ++ "/" ++ "AAA",
        ([[1, 2, 3]] : List (List Nat)).flatten) ∈
        (download_from_google_drive ⟨[], [], []⟩
          "https://drive.google.com/file/d/AAA/view" ⟨true, [[1, 2, 3]], true⟩
          "downloads").2.files
    ∧ (process_game ⟨[], [], []⟩
        [⟨2, "https://drive.google.com/file/d/BBB/view",
          ⟨true, [[7]], false⟩, true⟩]).2.length = 1 := by
  have h := midstream_failure_behavior ⟨[], [], []⟩
    "https://drive.google.com/file/d/AAA/view" "AAA" "downloads"
    ⟨true, [[1, 2, 3]], true⟩ (by decide) (by decide) rfl rfl
  exact ⟨h.1, h.2.1, h.2.2.1,
    h.2.2.2 ⟨[], [], []⟩
      [⟨2, "https://drive.google.com/file/d/BBB/view", ⟨true, [[7]], false⟩,
        true⟩]⟩

/-! ### C2: what the pre-filter deduplicates on -/

/-- One unfolding step of the pre-filter loop. -/
lemma prefilterGo_cons (mensajes : List Msg) (i : Int) (rest : List Int)
    (dset : List String) :
    prefilterGo mensajes (i :: rest) dset =
      if i < 0 ∨ (mensajes.length : Int) ≤ i then
        prefilterGo mensajes rest dset
      else if hasNonemptyText (mensajes.getD i.toNat default) = true then
        if pyStrip ((mensajes.getD i.toNat default).message.getD "") ∈ dset
          then prefilterGo mensajes rest dset
        else i.toNat :: prefilterGo mensajes rest
          (pyStrip ((mensajes.getD i.toNat default).message.getD "") :: dset)
      else i.toNat :: prefilterGo mensajes rest dset := rfl

lemma prefilter_kept_texts (mensajes : List Msg) :
    ∀ (indices : List Int) (dset : List String),
      ((prefilterGo mensajes indices dset).filterMap (keptText mensajes)).Nodup
      ∧ ∀ t ∈ (prefilterGo mensajes indices dset).filterMap
          (keptText mensajes), t ∉ dset := by
  intro indices
  induction indices with
  | nil =>
    intro dset
    simp [prefilterGo]
  | cons i rest ih =>
    intro dset
    rw [prefilterGo_cons]
    by_cases hr : i < 0 ∨ (mensajes.length : Int) ≤ i
    · rw [if_pos hr]; exact ih dset
    · rw [if_neg hr]
      by_cases ht : hasNonemptyText (mensajes.getD i.toNat default) = true
      · rw [if_pos ht]
        by_cases hd :
            pyStrip ((mensajes.getD i.toNat default).message.getD "") ∈ dset
        · rw [if_pos hd]; exact ih dset
        · have hk : keptText mensajes i.toNat =
              some (pyStrip ((mensajes.getD i.toNat default).message.getD "")) := by
            simp only [keptText]
            rw [if_pos ht]
          rw [if_neg hd, List.filterMap_cons, hk]
          obtain ⟨ihn, ihd⟩ :=
            ih (pyStrip ((mensajes.getD i.toNat default).message.getD "")
              :: dset)
          refine ⟨List.nodup_cons.mpr ⟨fun hmem => ?_, ihn⟩, ?_⟩
          · exact (ihd _ hmem) (List.mem_cons_self _ _)
          · intro t htm
            rcases List.mem_cons.mp htm with h | h
            · subst h; exact hd
            · intro hc
              exact (ihd t h) (List.mem_cons_of_mem _ hc)
      · have hk : keptText mensajes i.toNat = none := by
          simp only [keptText]
          rw [if_neg ht]
        rw [if_neg ht, List.filterMap_cons, hk]
        exact ih dset

/-- C2 counterexample: `"Hello"` and `"hello"` have equal normalized
(stripped, lower-cased) texts, yet BOTH are transferred: the pre-filter
compares raw stripped text case-sensitively, so the second is not reported
as a duplicate. -/
theorem dedup_case_sensitive_cex :
    pyLower (pyStrip "Hello") = pyLower (pyStrip "hello")
    ∧ mainEmitted
        [⟨0, 0, some "Hello", none, none, false⟩,
         ⟨1, 1, some "hello", none, none, false⟩] [] "0,1" = [0, 1] := by
  decide

/-- C2 amended: duplicate suppression compares exact stripped text (no
lower-casing): the kept text-bearing messages have pairwise-distinct
stripped texts, none equal to a destination-seeded stripped text, and the
first selected occurrence of an unseen stripped text is kept. -/
theorem dedup_trimmed_exact_text (mensajes : List Msg) (dset : List String)
    (indices rest : List Int) (i : Nat) :
    (((prefilterGo mensajes indices dset).filterMap
        (keptText mensajes)).Nodup
      ∧ ∀ t ∈ (prefilterGo mensajes indices dset).filterMap
          (keptText mensajes), t ∉ dset)
    ∧ (indices = (i : Int) :: rest → i < mensajes.length →
        hasNonemptyText (mensajes.getD i default) = true →
        pyStrip ((mensajes.getD i default).message.getD "") ∉ dset →
        i ∈ prefilterGo mensajes indices dset) := by
  refine ⟨prefilter_kept_texts mensajes indices dset, ?_⟩
  rintro rfl hlt ht hd
  have hr : ¬((i : Int) < 0 ∨ (mensajes.length : Int) ≤ (i : Int)) := by
    omega
  rw [prefilterGo_cons, if_neg hr,
    show ((i : Int)).toNat = i from rfl, if_pos ht, if_neg hd]
  exact List.mem_cons_self _ _

/-- Witness for C2's amended statement: the first of two same-text messages
is kept. -/
theorem dedup_trimmed_exact_text_witness :
    ([0, 1] : List Int) = ((0 : Nat) : Int) :: [1]
    ∧ 0 ∈ prefilterGo
        [⟨0, 0, some " hola ", none, none, false⟩,
         ⟨1, 1, some "hola", none, none, false⟩] [0, 1] [] :=
  ⟨rfl,
   (dedup_trimmed_exact_text
      [⟨0, 0, some " hola ", none, none, false⟩,
       ⟨1, 1, some "hola", none, none, false⟩] [] [0, 1] [1] 0).2
     rfl (by decide) (by decide) (by decide)⟩

/-! ### C3: the filter never consults fingerprints -/

lemma prefilter_keeps_textless (mensajes : List Msg) (i : Nat)
    (hlt : i < mensajes.length)
    (ht : hasNonemptyText (mensajes.getD i default) = false) :
    ∀ (indices : List Int) (dset : List String),
      (i : Int) ∈ indices → i ∈ prefilterGo mensajes indices dset := by
  intro indices
  induction indices with
  | nil => intro dset h; simp at h
  | cons j rest ih =>
    intro dset hmem
    rcases List.mem_cons.mp hmem with hj | hj
    · subst hj
      have hr : ¬((i : Int) < 0 ∨ (mensajes.length : Int) ≤ (i : Int)) := by
        omega
      have ht2 : ¬ hasNonemptyText (mensajes.getD i default) = true := by
        rw [ht]; exact Bool.false_ne_true
      rw [prefilterGo_cons, if_neg hr, show ((i : Int)).toNat = i from rfl,
        if_neg ht2]
      exact List.mem_cons_self _ _
    · rw [prefilterGo_cons]
      by_cases hr : j < 0 ∨ (mensajes.length : Int) ≤ j
      · rw [if_pos hr]; exact ih dset hj
      · rw [if_neg hr]
        by_cases htj : hasNonemptyText (mensajes.getD j.toNat default) = true
        · rw [if_pos htj]
          by_cases hd :
              pyStrip ((mensajes.getD j.toNat default).message.getD "") ∈ dset
          · rw [if_pos hd]; exact ih dset hj
          · rw [if_neg hd]
            exact List.mem_cons_of_mem _
              (ih (pyStrip ((mensajes.getD j.toNat default).message.getD "")
                :: dset) hj)
        · rw [if_neg htj]
          exact List.mem_cons_of_mem _ (ih dset hj)

lemma getD_message_congr (mensajes mensajes2 : List Msg)
    (h : mensajes.map Msg.message = mensajes2.map Msg.message) (k : Nat) :
    (mensajes.getD k default).message = (mensajes2.getD k default).message := by
  have h1 : (mensajes.map Msg.message).getD k ((default : Msg).message) =
      (mensajes2.map Msg.message).getD k ((default : Msg).message) := by
    rw [h]
  simpa [List.getD_map] using h1

lemma hasNonemptyText_congr (m m2 : Msg) (h : m.message = m2.message) :
    hasNonemptyText m = hasNonemptyText m2 := by
  unfold hasNonemptyText
  rw [h]

lemma prefilter_message_congr (mensajes mensajes2 : List Msg)
    (h : mensajes.map Msg.message = mensajes2.map Msg.message) :
    ∀ (indices : List Int) (dset : List String),
      prefilterGo mensajes indices dset = prefilterGo mensajes2 indices dset := by
  have hlen : mensajes.length = mensajes2.length := by
    have := congrArg List.length h
    simpa using this
  intro indices
  induction indices with
  | nil => intro dset; rfl
  | cons j rest ih =>
    intro dset
    have hm := getD_message_congr mensajes mensajes2 h j.toNat
    have hh := hasNonemptyText_congr _ _ hm
    rw [prefilterGo_cons, prefilterGo_cons]
    by_cases hr : j < 0 ∨ (mensajes.length : Int) ≤ j
    · have hr2 : j < 0 ∨ (mensajes2.length : Int) ≤ j := by
        rw [← hlen]; exact hr
      rw [if_pos hr, if_pos hr2, ih]
    · have hr2 : ¬(j < 0 ∨ (mensajes2.length : Int) ≤ j) := by
        rw [← hlen]; exact hr
      rw [if_neg hr, if_neg hr2]
      by_cases htj : hasNonemptyText (mensajes.getD j.toNat default) = true
      · have htj2 : hasNonemptyText (mensajes2.getD j.toNat default) = true := by
          rw [← hh]; exact htj
        have htxt : pyStrip ((mensajes.getD j.toNat default).message.getD "") =
            pyStrip ((mensajes2.getD j.toNat default).message.getD "") := by
          rw [hm]
        rw [if_pos htj, if_pos htj2]
        by_cases hd :
            pyStrip ((mensajes.getD j.toNat default).message.getD "") ∈ dset
        · have hd2 :
              pyStrip ((mensajes2.getD j.toNat default).message.getD "")
                ∈ dset := htxt ▸ hd
          rw [if_pos hd, if_pos hd2, ih]
        · have hd2 :
              pyStrip ((mensajes2.getD j.toNat default).message.getD "")
                ∉ dset := htxt ▸ hd
          rw [if_neg hd, if_neg hd2, ← htxt, ih]
      · have htj2 : ¬ hasNonemptyText (mensajes2.getD j.toNat default) = true := by
          rw [← hh]; exact htj
        rw [if_neg htj, if_neg htj2, ih]

/-- C3 counterexample: two caption-less documents share the identical
fingerprint `doc:9`, yet both selected messages are transferred: the
pipeline never consults `compute_fingerprint` and filters only messages
with non-empty text. -/
theorem fingerprint_filter_cex :
    compute_fingerprint ⟨0, 0, none, some ⟨[], 9⟩, none, true⟩ =
      compute_fingerprint ⟨1, 1, none, some ⟨[], 9⟩, none, true⟩
    ∧ (compute_fingerprint ⟨0, 0, none, some ⟨[], 9⟩, none, true⟩).isSome =
        true
    ∧ mainEmitted
        [⟨0, 0, none, some ⟨[], 9⟩, none, true⟩,
         ⟨1, 1, none, some ⟨[], 9⟩, none, true⟩] [] "0,1" = [0, 1] := by
  decide

/-- C3 corrected: the duplicate filter never uses fingerprints: every
selected in-range message without non-empty text is kept (even when it has a
fingerprint), and the filter output depends only on the messages' text
field — two message lists agreeing on `Msg.message` are filtered
identically, whatever their media, ids or fingerprints. -/
theorem prefilter_text_only (mensajes mensajes2 : List Msg)
    (indices : List Int) (dset : List String) (i : Nat) :
    ((i : Int) ∈ indices → i < mensajes.length →
      hasNonemptyText (mensajes.getD i default) = false →
      i ∈ prefilterGo mensajes indices dset)
    ∧ (mensajes.map Msg.message = mensajes2.map Msg.message →
        prefilterGo mensajes indices dset =
          prefilterGo mensajes2 indices dset) := by
  constructor
  · intro hmem hlt ht
    exact prefilter_keeps_textless mensajes i hlt ht indices dset hmem
  · intro h
    exact prefilter_message_congr mensajes mensajes2 h indices dset

/-- Witness for C3's corrected statement. -/
theorem prefilter_text_only_witness :
    1 ∈ prefilterGo
        [⟨0, 0, none, some ⟨[], 9⟩, none, true⟩,
         ⟨1, 1, none, some ⟨[], 9⟩, none, true⟩] [0, 1] []
    ∧ prefilterGo [⟨0, 0, none, some ⟨[], 9⟩, none, true⟩] [0] [] =
        prefilterGo [⟨7, 7, none, none, some ⟨some 3⟩, false⟩] [0] [] :=
  ⟨(prefilter_text_only
      [⟨0, 0, none, some ⟨[], 9⟩, none, true⟩,
       ⟨1, 1, none, some ⟨[], 9⟩, none, true⟩]
      [] [0, 1] [] 1).1 (by decide) (by decide) (by decide),
   (prefilter_text_only [⟨0, 0, none, some ⟨[], 9⟩, none, true⟩]
      [⟨7, 7, none, none, some ⟨some 3⟩, false⟩] [0] [] 0).2 (by decide)⟩

/-! ### C10: repeated selection of a text-less message -/

lemma prefilter_count_textless (mensajes : List Msg) (i : Nat)
    (hlt : i < mensajes.length)
    (ht : hasNonemptyText (mensajes.getD i default) = false) :
    ∀ (indices : List Int) (dset : List String),
      (prefilterGo mensajes indices dset).count i =
        indices.count ((i : Int)) := by
  intro indices
  induction indices with
  | nil => intro dset; simp [prefilterGo]
  | cons j rest ih =>
    intro dset
    rw [prefilterGo_cons]
    by_cases hj : j = (i : Int)
    · subst hj
      have hr : ¬((i : Int) < 0 ∨ (mensajes.length : Int) ≤ (i : Int)) := by
        omega
      have ht2 : ¬ hasNonemptyText (mensajes.getD i default) = true := by
        rw [ht]; exact Bool.false_ne_true
      rw [if_neg hr, show ((i : Int)).toNat = i from rfl, if_neg ht2,
        List.count_cons, List.count_cons, ih dset]
      simp
    · have hcr : (j :: rest).count ((i : Int)) =
          rest.count ((i : Int)) := by
        rw [List.count_cons]
        simp [hj]
      by_cases hr : j < 0 ∨ (mensajes.length : Int) ≤ j
      · rw [if_pos hr, ih dset, hcr]
      · have hjt : j.toNat ≠ i := by
          intro hc
          apply hj
          have h0 : 0 ≤ j := by omega
          rw [← Int.toNat_of_nonneg h0, hc]
        rw [if_neg hr]
        by_cases htj : hasNonemptyText (mensajes.getD j.toNat default) = true
        · rw [if_pos htj]
          by_cases hd :
              pyStrip ((mensajes.getD j.toNat default).message.getD "") ∈ dset
          · rw [if_pos hd, ih dset, hcr]
          · rw [if_neg hd, List.count_cons, ih _, hcr]
            simp [hjt]
        · rw [if_neg htj, List.count_cons, ih dset, hcr]
          simp [hjt]

/-- C10: a text-less message selected `k` times is forwarded `k` times: the
pre-filter deduplicates only text-bearing messages, so every listed
occurrence of an in-range text-less index survives to the emission list. -/
theorem textless_repeat_forwarded (mensajes destMsgs : List Msg)
    (input : String) (i : Nat)
    (hlt : i < (ordena mensajes).length)
    (ht : hasNonemptyText ((ordena mensajes).getD i default) = false) :
    (mainEmitted mensajes destMsgs input).count i =
      (parseSeleccion (pyLower (pyStrip input))
        (ordena mensajes).length).count ((i : Int)) := by
  unfold mainEmitted
  rw [List.Perm.count_eq (List.perm_insertionSort _ _)]
  exact prefilter_count_textless _ i hlt ht _ _

/-- Witness for C10: the caption-less photo at index 1, selected as `"1,1"`,
appears twice in the emission list. -/
theorem textless_repeat_forwarded_witness :
    (mainEmitted
        [⟨0, 0, some "a", none, none, false⟩,
         ⟨1, 1, none, none, some ⟨some 7⟩, true⟩] [] "1,1").count 1 =
      (parseSeleccion (pyLower (pyStrip "1,1"))
        (ordena
          [⟨0, 0, some "a", none, none, false⟩,
           ⟨1, 1, none, none, some ⟨some 7⟩, true⟩]).length).count
        ((1 : Nat) : Int) :=
  textless_repeat_forwarded
    [⟨0, 0, some "a", none, none, false⟩,
     ⟨1, 1, none, none, some ⟨some 7⟩, true⟩] [] "1,1" 1 (by decide)
    (by decide)

/-! ### C1: ordering, exactness, and sequential emission -/

/-- One unfolding step of the spec-side scan. -/
lemma specGo_cons (mensajes : List Msg) (parsed : List Int) (i : Nat)
    (rest : List Nat) (seen : List String) :
    specGo mensajes parsed (i :: rest) seen =
      if (i : Int) ∈ parsed then
        if hasNonemptyText (mensajes.getD i default) = true then
          if pyStrip ((mensajes.getD i default).message.getD "") ∈ seen then
            specGo mensajes parsed rest seen
          else i :: specGo mensajes parsed rest
            (pyStrip ((mensajes.getD i default).message.getD "") :: seen)
        else i :: specGo mensajes parsed rest seen
      else specGo mensajes parsed rest seen := rfl

lemma specGo_sublist (mensajes : List Msg) (parsed : List Int) :
    ∀ (cands : List Nat) (seen : List String),
      (specGo mensajes parsed cands seen).Sublist cands := by
  intro cands
  induction cands with
  | nil => intro seen; simp [specGo]
  | cons i rest ih =>
    intro seen
    rw [specGo_cons]
    by_cases hp : (i : Int) ∈ parsed
    · rw [if_pos hp]
      by_cases ht : hasNonemptyText (mensajes.getD i default) = true
      · rw [if_pos ht]
        by_cases hd :
            pyStrip ((mensajes.getD i default).message.getD "") ∈ seen
        · rw [if_pos hd]; exact List.Sublist.cons _ (ih seen)
        · rw [if_neg hd]; exact List.Sublist.cons₂ _ (ih _)
      · rw [if_neg ht]; exact List.Sublist.cons₂ _ (ih seen)
    · rw [if_neg hp]; exact List.Sublist.cons _ (ih seen)

/-- Out-of-range selected indices are dropped without touching the seen-set. -/
lemma prefilter_drop_out_of_range (mensajes : List Msg) :
    ∀ (indices : List Int) (dset : List String),
      prefilterGo mensajes indices dset =
        prefilterGo mensajes
          (indices.filter fun j =>
            decide (0 ≤ j ∧ j < (mensajes.length : Int))) dset := by
  intro indices
  induction indices with
  | nil => intro dset; rfl
  | cons j rest ih =>
    intro dset
    by_cases hr : 0 ≤ j ∧ j < (mensajes.length : Int)
    · have hr2 : ¬(j < 0 ∨ (mensajes.length : Int) ≤ j) := by omega
      rw [List.filter_cons_of_pos (by simpa using hr), prefilterGo_cons,
        prefilterGo_cons, if_neg hr2, if_neg hr2]
      by_cases ht : hasNonemptyText (mensajes.getD j.toNat default) = true
      · rw [if_pos ht, if_pos ht]
        by_cases hd :
            pyStrip ((mensajes.getD j.toNat default).message.getD "") ∈ dset
        · rw [if_pos hd, if_pos hd, ih]
        · rw [if_neg hd, if_neg hd, ih]
      · rw [if_neg ht, if_neg ht, ih]
    · have hr2 : j < 0 ∨ (mensajes.length : Int) ≤ j := by omega
      rw [List.filter_cons_of_neg (by simpa using hr), prefilterGo_cons,
        if_pos hr2, ih]

/-- The spec-side scan over in-range candidates equals the code's pre-filter
run on those candidates (as integers, in the same order). -/
lemma specGo_eq_prefilter (mensajes : List Msg) (parsed : List Int) :
    ∀ (cands : List Nat), (∀ k ∈ cands, k < mensajes.length) →
      ∀ (seen : List String),
        specGo mensajes parsed cands seen =
          prefilterGo mensajes
            ((cands.filter (fun k : Nat => decide ((k : Int) ∈ parsed))).map
              (fun k : Nat => (k : Int))) seen := by
  intro cands
  induction cands with
  | nil => intro _ seen; rfl
  | cons i rest ih =>
    intro hk seen
    have hi : i < mensajes.length := hk i (List.mem_cons_self _ _)
    have hrest : ∀ k ∈ rest, k < mensajes.length := fun k hkm =>
      hk k (List.mem_cons_of_mem _ hkm)
    rw [specGo_cons]
    by_cases hp : (i : Int) ∈ parsed
    · rw [if_pos hp, List.filter_cons_of_pos (by simpa using hp),
        List.map_cons, prefilterGo_cons]
      have hr : ¬((i : Int) < 0 ∨ (mensajes.length : Int) ≤ (i : Int)) := by
        omega
      rw [if_neg hr, show ((i : Int)).toNat = i from rfl]
      by_cases ht : hasNonemptyText (mensajes.getD i default) = true
      · rw [if_pos ht, if_pos ht]
        by_cases hd :
            pyStrip ((mensajes.getD i default).message.getD "") ∈ seen
        · rw [if_pos hd, if_pos hd, ih hrest seen]
        · rw [if_neg hd, if_neg hd, ih hrest _]
      · rw [if_neg ht, if_neg ht, ih hrest seen]
    · rw [if_neg hp, List.filter_cons_of_neg (by simpa using hp),
        ih hrest seen]

/-- For a strictly increasing selection, the in-range selected indices in
selection order are exactly the source positions that are selected, in
source order. -/
lemma filter_range_eq_of_sorted (parsed : List Int) (n : Nat)
    (hinc : parsed.Chain' (· < ·)) :
    parsed.filter (fun j => decide (0 ≤ j ∧ j < (n : Int))) =
      ((List.range n).filter (fun k : Nat => decide ((k : Int) ∈ parsed))).map
        (fun k : Nat => (k : Int)) := by
  have hp : parsed.Pairwise (· < ·) := List.chain'_iff_pairwise.mp hinc
  have hnd1 :
      (parsed.filter (fun j => decide (0 ≤ j ∧ j < (n : Int)))).Nodup :=
    (hp.imp fun hab => hab.ne).filter _
  have hnd2 :
      (((List.range n).filter (fun k : Nat => decide ((k : Int) ∈ parsed))).map
        (fun k : Nat => (k : Int))).Nodup := by
    refine List.Nodup.map ?_ (((List.nodup_range n)).filter _)
    intro a b hab
    simpa using hab
  have hmem : ∀ x,
      x ∈ parsed.filter (fun j => decide (0 ≤ j ∧ j < (n : Int))) ↔
      x ∈ ((List.range n).filter (fun k : Nat => decide ((k : Int) ∈ parsed))).map
        (fun k : Nat => (k : Int)) := by
    intro x
    simp only [List.mem_filter, List.mem_map, List.mem_range,
      decide_eq_true_eq]
    constructor
    · rintro ⟨hx, h0, hn⟩
      refine ⟨x.toNat, ⟨by omega, ?_⟩, Int.toNat_of_nonneg h0⟩
      rwa [Int.toNat_of_nonneg h0]
    · rintro ⟨k, ⟨hk, hkp⟩, rfl⟩
      exact ⟨hkp, by omega, by omega⟩
  have hperm := (List.perm_ext_iff_of_nodup hnd1 hnd2).mpr hmem
  have hs1 :
      (parsed.filter (fun j => decide (0 ≤ j ∧ j < (n : Int)))).Sorted
        (· ≤ ·) :=
    (hp.filter _).imp fun hab => le_of_lt hab
  have hs2 :
      (((List.range n).filter (fun k : Nat => decide ((k : Int) ∈ parsed))).map
        (fun k : Nat => (k : Int))).Sorted (· ≤ ·) := by
    have h1 : ((List.range n).filter
        (fun k : Nat => decide ((k : Int) ∈ parsed))).Pairwise (· < ·) :=
      (List.sorted_lt_range n).filter _
    exact List.Pairwise.map _ (fun a b hab => by exact_mod_cast le_of_lt hab)
      h1
  exact List.eq_of_perm_of_sorted hperm hs1 hs2

/-- The pipeline's emitted index list coincides with the spec's source-order
scan whenever the parsed selection is strictly increasing. -/
lemma mainEmitted_eq_specEmission (mensajes destMsgs : List Msg)
    (input : String)
    (hinc : (parseSeleccion (pyLower (pyStrip input))
      (ordena mensajes).length).Chain' (· < ·)) :
    mainEmitted mensajes destMsgs input =
      specEmission (ordena mensajes) destMsgs
        (parseSeleccion (pyLower (pyStrip input))
          (ordena mensajes).length) := by
  unfold mainEmitted specEmission
  have e0 := prefilter_drop_out_of_range (ordena mensajes)
    (parseSeleccion (pyLower (pyStrip input)) (ordena mensajes).length)
    (seedDestSet destMsgs)
  have e1 := filter_range_eq_of_sorted
    (parseSeleccion (pyLower (pyStrip input)) (ordena mensajes).length)
    (ordena mensajes).length hinc
  have e2 := specGo_eq_prefilter (ordena mensajes)
    (parseSeleccion (pyLower (pyStrip input)) (ordena mensajes).length)
    (List.range (ordena mensajes).length)
    (fun k hk => List.mem_range.mp hk) (seedDestSet destMsgs)
  rw [e0, e1, ← e2]
  apply List.Sorted.insertionSort_eq
  have hsub := specGo_sublist (ordena mensajes)
    (parseSeleccion (pyLower (pyStrip input)) (ordena mensajes).length)
    (List.range (ordena mensajes).length) (seedDestSet destMsgs)
  exact (List.Pairwise.sublist hsub
    (List.sorted_lt_range (ordena mensajes).length)).imp
    fun hab => le_of_lt hab

/-- When the download and the send both succeed, one `forward_message` call
performs exactly one destination-facing send. -/
lemma forward_success_sends (m : Msg) (e : FwdEnv) (hs : e.sendOk = true)
    (hd : e.downloadPath.isSome = true) :
    (forward_message m e).sends =
      [successSend m (e.downloadPath.getD "")] := by
  obtain ⟨p, hp⟩ := Option.isSome_iff_exists.mp hd
  by_cases hm : (m.photo.isSome || m.document.isSome || m.media) = true
  · simp [forward_message, successSend, hm, hp, hs]
  · simp [forward_message, successSend, hm, hs]

/-- The sequential emission loop appends exactly one completed send per job,
in job order. -/
lemma emit_fold_map (msgsS : List Msg) (env : Nat → FwdEnv)
    (hs : ∀ i, (env i).sendOk = true)
    (hd : ∀ i, (env i).downloadPath.isSome = true) :
    ∀ (l : List Nat) (acc : List Send),
      l.foldl
        (fun tr i => tr ++ (forward_message (msgsS.getD i default)
          (env i)).sends) acc =
      acc ++ l.map (fun i => successSend (msgsS.getD i default)
        ((env i).downloadPath.getD "")) := by
  intro l
  induction l with
  | nil => intro acc; simp
  | cons i rest ih =>
    intro acc
    rw [List.foldl_cons, ih, forward_success_sends _ _ (hs i) (hd i),
      List.map_cons]
    simp

/-- C1: for a date-sorted source timeline and a selection that parses to a
strictly increasing index sequence (the spec's "strict subset"), the job
list `main` emits equals the spec's prediction — exactly the selected,
non-duplicate members, scanned in source order — and is a sublist of the
source positions (source-relative order).  Emission is a sequential fold
awaiting one `forward_message` at a time, so when downloads and sends
succeed, the destination trace is exactly one send per kept job, in that
order. -/
theorem main_emission_matches_spec (mensajes destMsgs : List Msg)
    (input : String) (env : Nat → FwdEnv)
    (hinc : (parseSeleccion (pyLower (pyStrip input))
      (ordena mensajes).length).Chain' (· < ·))
    (hs : ∀ i, (env i).sendOk = true)
    (hd : ∀ i, (env i).downloadPath.isSome = true) :
    mainEmitted mensajes destMsgs input =
      specEmission (ordena mensajes) destMsgs
        (parseSeleccion (pyLower (pyStrip input)) (ordena mensajes).length)
    ∧ (mainEmitted mensajes destMsgs input).Sublist
        (List.range (ordena mensajes).length)
    ∧ mainTrace mensajes destMsgs input env =
        (mainEmitted mensajes destMsgs input).map
          (fun i => successSend ((ordena mensajes).getD i default)
            ((env i).downloadPath.getD "")) := by
  have h1 := mainEmitted_eq_specEmission mensajes destMsgs input hinc
  refine ⟨h1, ?_, ?_⟩
  · rw [h1]
    unfold specEmission
    exact specGo_sublist _ _ _ _
  · unfold mainTrace
    rw [emit_fold_map (ordena mensajes) env hs hd]
    simp

/-- Witness for C1 at a concrete two-message source with selection `"0,1"`
and an always-succeeding environment. -/
theorem main_emission_matches_spec_witness :
    mainEmitted
        [⟨0, 0, some "a", none, none, false⟩,
         ⟨1, 1, none, none, some ⟨some 7⟩, true⟩] [] "0,1" =
      specEmission
        (ordena [⟨0, 0, some "a", none, none, false⟩,
                 ⟨1, 1, none, none, some ⟨some 7⟩, true⟩]) []
        (parseSeleccion (pyLower (pyStrip "0,1"))
          (ordena [⟨0, 0, some "a", none, none, false⟩,
                   ⟨1, 1, none, none, some ⟨some 7⟩, true⟩]).length)
    ∧ (mainEmitted
        [⟨0, 0, some "a", none, none, false⟩,
         ⟨1, 1, none, none, some ⟨some 7⟩, true⟩] [] "0,1").Sublist
        (List.range
          (ordena [⟨0, 0, some "a", none, none, false⟩,
                   ⟨1, 1, none, none, some ⟨some 7⟩, true⟩]).length)
    ∧ mainTrace
        [⟨0, 0, some "a", none, none, false⟩,
         ⟨1, 1, none, none, some ⟨some 7⟩, true⟩] [] "0,1"
        (fun _ => ⟨some "f", true, true⟩) =
      (mainEmitted
        [⟨0, 0, some "a", none, none, false⟩,
         ⟨1, 1, none, none, some ⟨some 7⟩, true⟩] [] "0,1").map
        (fun i => successSend
          ((ordena [⟨0, 0, some "a", none, none, false⟩,
                    ⟨1, 1, none, none, some ⟨some 7⟩, true⟩]).getD i default)
          (((fun _ => (⟨some "f", true, true⟩ : FwdEnv)) i).downloadPath.getD
            "")) :=
  main_emission_matches_spec
    [⟨0, 0, some "a", none, none, false⟩,
     ⟨1, 1, none, none, some ⟨some 7⟩, true⟩] [] "0,1"
    (fun _ => ⟨some "f", true, true⟩)
    (by
      have h : parseSeleccion (pyLower (pyStrip "0,1"))
          (ordena [⟨0, 0, some "a", none, none, false⟩,
            ⟨1, 1, none, none, some ⟨some 7⟩, true⟩]).length = [0, 1] := by
        decide
      rw [h]
      exact List.chain'_pair.mpr (by decide))
    (fun _ => rfl) (fun _ => rfl)

end Tele
